import Mathlib

/-!
Shallow embedding of the student-grade service with a Redis read-through
cache (`app/cache.py`, `app/routes.py`, `app/models.py`).

Modelling conventions:
- Python floats (as produced by `float(x)`) are modelled exactly: finite
  values are rationals, and `nan` / `inf` / `-inf` keep IEEE comparison
  semantics (`nan` compares false against everything).
- The Redis keyspace is a flat association list from string keys to values;
  a value is either a string holding a JSON-serialized student list
  (serialization is modelled as the identity on records) or a Redis list of
  numbers (newest first).  `setex` TTLs are not modelled: no claim below
  depends on expiry, and all reads considered happen with no time passing.
- Redis-backend exceptions are modelled by an explicit boolean per backend
  call; the `try/except` blocks of the source absorb them exactly as the
  source does (treat as miss / no-op).
- The SQLAlchemy session is modelled by applying mutations to the record
  store only at `commit()`: attribute assignments on an ORM object before a
  failed validation are request-local and are discarded at request teardown,
  leaving the store unchanged.
-/

/-- Python float values as they arise from `float(x)`: finite values are
modelled exactly as rationals; `nan`, `inf`, `ninf` keep IEEE comparison
semantics. -/
inductive PyFloat where
  | nan
  | inf
  | ninf
  | fin (q : ℚ)
deriving DecidableEq, Repr

/-- IEEE `<` on modelled Python floats: any comparison with `nan` is false. -/
def PyFloat.lt : PyFloat → PyFloat → Bool
  | .nan, _ => false
  | _, .nan => false
  | .ninf, .ninf => false
  | .ninf, _ => true
  | _, .ninf => false
  | .inf, _ => false
  | .fin _, .inf => true
  | .fin a, .fin b => decide (a < b)

/-- IEEE `>` on modelled Python floats. -/
def PyFloat.gt (a b : PyFloat) : Bool := PyFloat.lt b a

/-- IEEE `≤` on modelled Python floats: any comparison with `nan` is false. -/
def PyFloat.le : PyFloat → PyFloat → Bool
  | .nan, _ => false
  | _, .nan => false
  | .ninf, _ => true
  | _, .ninf => false
  | _, .inf => true
  | .inf, _ => false
  | .fin a, .fin b => decide (a ≤ b)

/-- The persisted-record invariant stated by the spec: `0 ≤ grade ≤ 20`. -/
def gradeInRange (g : PyFloat) : Bool :=
  (PyFloat.fin 0).le g && g.le (PyFloat.fin 20)

/-- Python `str.strip()` (whitespace trimming on both ends). -/
def pyStrip (s : String) : String :=
  ⟨((s.data.dropWhile Char.isWhitespace).reverse.dropWhile Char.isWhitespace).reverse⟩

/-- Python `str.lower()` (per-character lowering; ASCII-faithful). -/
def pyLower (s : String) : String := ⟨s.data.map Char.toLower⟩

/-- Containment of `pat` as a contiguous sublist of `s`. -/
def isSubstring (pat : List Char) : List Char → Bool
  | [] => pat.isEmpty
  | c :: cs => pat.isPrefixOf (c :: cs) || isSubstring pat cs

/-- SQL `name ILIKE '%pat%'`, i.e. case-insensitive substring containment
(wildcard metacharacters inside the filter are not modelled). -/
def nameMatches (name pat : String) : Bool :=
  isSubstring (pyLower pat).data (pyLower name).data

/-- A student record (`models.Student`); timestamps are abstract instants. -/
structure Student where
  id : Nat
  name : String
  grade : PyFloat
  created_at : Nat
  updated_at : Nat
deriving DecidableEq, Repr

/-- Stable insertion of a student into a name-sorted list. -/
def insertByName (s : Student) : List Student → List Student
  | [] => [s]
  | t :: ts =>
      if decide (t.name ≤ s.name) then t :: insertByName s ts
      else s :: t :: ts

/-- `ORDER BY name` of the read path, as a stable insertion sort. -/
def sortByName : List Student → List Student
  | [] => []
  | s :: ss => insertByName s (sortByName ss)

/-- A Redis value: either a string key holding the JSON-serialized student
list (serialization modelled as the identity), or a list of numbers
(newest first), as used for metric histories. -/
inductive RVal where
  | vstr (students : List Student)
  | vlist (xs : List ℚ)
deriving DecidableEq, Repr

/-- The Redis keyspace: an association list from keys to values (first
binding wins). -/
structure RedisState where
  entries : List (String × RVal)
deriving DecidableEq, Repr

/-- Redis `GET`-level lookup of a key. -/
def RedisState.get (st : RedisState) (k : String) : Option RVal :=
  (st.entries.find? (fun e => e.1 == k)).map (·.2)

/-- Redis `SET`/`SETEX`: replaces any existing binding of the key. -/
def RedisState.set (st : RedisState) (k : String) (v : RVal) : RedisState :=
  ⟨(k, v) :: st.entries.filter (fun e => !(e.1 == k))⟩

/-- The empty Redis keyspace. -/
def emptyRedis : RedisState := ⟨[]⟩

/-- Python `round(x, 2)` (round-half-to-even), on exact rationals. -/
def roundHalfEven (x : ℚ) : ℤ :=
  let f := ⌊x⌋
  let r := x - f
  if r < 1/2 then f
  else if 1/2 < r then f + 1
  else if 2 ∣ f then f else f + 1

/-- Rounding to two decimal places, as `round(x, 2)` in the source. -/
def round2 (x : ℚ) : ℚ := (roundHalfEven (x * 100) : ℚ) / 100

namespace CacheManager

/-- `CacheManager.get_cache_key`: the standard key format `prefix:identifier`. -/
def get_cache_key (p : String) (identifier : String) : String :=
  p ++ ":" ++ identifier

/-- The cache key used by both `get_students_from_cache` and
`set_students_to_cache` (the same `if filter_name` split, duplicated in the
source). -/
def studentsKey (filter_name : Option String) : String :=
  match filter_name with
  | some f => get_cache_key "students" ("filter:" ++ pyLower f)
  | none => get_cache_key "students" "all"

/-- `CacheManager.get_students_from_cache`.  `backendFails` marks the Redis
call raising; the `except` branch returns `(None, 0, False)`.  A `GET` on a
key holding a Redis list raises WRONGTYPE, absorbed the same way.
`elapsedMs` is the measured wall-clock lookup latency. -/
def get_students_from_cache (st : RedisState) (filter_name : Option String)
    (backendFails : Bool) (elapsedMs : ℚ) : Option (List Student) × ℚ × Bool :=
  let cache_key := studentsKey filter_name
  if backendFails then (none, 0, false)
  else
    match st.get cache_key with
    | some (.vstr students) => (some students, elapsedMs, true)
    | some (.vlist _) => (none, 0, false)
    | none => (none, 0, false)

/-- `CacheManager.set_students_to_cache`: `SETEX` replaces the key; backend
failure is absorbed and reported as `False`. -/
def set_students_to_cache (st : RedisState) (students : List Student)
    (filter_name : Option String) (backendFails : Bool) : Bool × RedisState :=
  let cache_key := studentsKey filter_name
  if backendFails then (false, st)
  else (true, st.set cache_key (.vstr students))

/-- Membership in the `students:*` glob pattern used by
`invalidate_students_cache` (Redis `*` matches any, possibly empty, suffix). -/
def keyInStudentsNs (k : String) : Bool :=
  "students:".data.isPrefixOf k.data

/-- `CacheManager.invalidate_students_cache`: deletes every key matching
`students:*`, returns the number of deleted keys; backend failure is
absorbed, returning 0 with the keyspace untouched. -/
def invalidate_students_cache (st : RedisState) (backendFails : Bool) :
    Nat × RedisState :=
  if backendFails then (0, st)
  else
    let matched := st.entries.filter (fun e => keyInStudentsNs e.1)
    (matched.length, ⟨st.entries.filter (fun e => !(keyInStudentsNs e.1))⟩)

/-- `CacheManager.store_performance_metric`: `LPUSH` then `LTRIM 0 99` on
`metrics:{source}`; backend failure (including WRONGTYPE when the key holds
a string) is absorbed, leaving the keyspace untouched. -/
def store_performance_metric (st : RedisState) (source : String)
    (access_time : ℚ) (backendFails : Bool) : RedisState :=
  if backendFails then st
  else
    let metric_key := "metrics:" ++ source
    match st.get metric_key with
    | some (.vstr _) => st
    | some (.vlist xs) => st.set metric_key (.vlist ((access_time :: xs).take 100))
    | none => st.set metric_key (.vlist [access_time])

/-- Per-source slice of the metrics snapshot. -/
structure SourceStats where
  times : List ℚ
  average : ℚ
  count : Nat
deriving DecidableEq, Repr

/-- The metrics snapshot returned by `get_performance_metrics`. -/
structure PerfMetrics where
  cache : SourceStats
  database : SourceStats
deriving DecidableEq, Repr

/-- The zeroed per-source stats of the error branch / empty history. -/
def emptyStats : SourceStats := ⟨[], 0, 0⟩

/-- Python average of the source: `sum/len` when non-empty, else 0. -/
def pyAvg (xs : List ℚ) : ℚ := if xs.isEmpty then 0 else xs.sum / xs.length

/-- Redis `LRANGE k 0 -1`: the whole list; `[]` when the key is absent;
WRONGTYPE (string-valued key) raises, modelled as `none`. -/
def lrangeAll (st : RedisState) (k : String) : Option (List ℚ) :=
  match st.get k with
  | some (.vlist xs) => some xs
  | some (.vstr _) => none
  | none => some []

/-- `CacheManager.get_performance_metrics`: per source, the first 20 stored
values (newest first) for display, the rounded average over the whole
stored list, and its length; the `except` branch returns zeroes. -/
def get_performance_metrics (st : RedisState) (backendFails : Bool) : PerfMetrics :=
  if backendFails then ⟨emptyStats, emptyStats⟩
  else
    match lrangeAll st "metrics:cache", lrangeAll st "metrics:database" with
    | some cache_times, some db_times =>
        ⟨⟨cache_times.take 20, round2 (pyAvg cache_times), cache_times.length⟩,
         ⟨db_times.take 20, round2 (pyAvg db_times), db_times.length⟩⟩
    | _, _ => ⟨emptyStats, emptyStats⟩

end CacheManager

/-- The record store (table `students` plus its autoincrement counter). -/
structure DB where
  students : List Student
  next_id : Nat
deriving DecidableEq, Repr

/-- `Student.query.get(student_id)`. -/
def DB.findById (db : DB) (sid : Nat) : Option Student :=
  db.students.find? (fun s => s.id == sid)

/-- The read-path store query: optional ILIKE filter, then `ORDER BY name`. -/
def studentQuery (db : DB) (filter_name : String) : List Student :=
  sortByName
    (if filter_name = "" then db.students
     else db.students.filter (fun s => nameMatches s.name filter_name))

/-- Which backend calls of one request raise, one flag per call site. -/
structure Faults where
  cacheGet : Bool
  cacheSet : Bool
  inval : Bool
  metric : Bool
deriving DecidableEq, Repr

/-- The healthy backend: no call raises. -/
def noFaults : Faults := ⟨false, false, false, false⟩

/-- The full application state: record store plus Redis keyspace. -/
structure AppState where
  db : DB
  redis : RedisState
deriving DecidableEq, Repr

/-- The JSON payload of the list endpoint. -/
structure ReadResp where
  success : Bool
  students : List Student
  from_cache : Bool
  access_time : ℚ
  count : Nat
deriving DecidableEq, Repr

/-- The optional filter passed to the cache layer by `routes.get_students`:
the trimmed query parameter, with the empty string standing for
no filter. -/
def stripOpt (rawName : String) : Option String :=
  if pyStrip rawName = "" then none else some (pyStrip rawName)

/-- `routes.get_students`: cache first, then the record store on a miss,
repopulating the cache; a metric sample is stored on both paths.
`cacheMs` / `dbMs` are the measured latencies of the two lookups. -/
def get_students (st : AppState) (rawName : String) (cacheMs dbMs : ℚ)
    (f : Faults) : ReadResp × AppState :=
  let filter_name := pyStrip rawName
  let fopt := stripOpt rawName
  match CacheManager.get_students_from_cache st.redis fopt f.cacheGet cacheMs with
  | (cached, cache_time, true) =>
      let redis1 := CacheManager.store_performance_metric st.redis "cache" cache_time f.metric
      (⟨true, cached.getD [], true, round2 cache_time, (cached.getD []).length⟩,
       ⟨st.db, redis1⟩)
  | (_, _, false) =>
      let students_dict := studentQuery st.db filter_name
      let redis1 := CacheManager.store_performance_metric st.redis "database" dbMs f.metric
      let redis2 := (CacheManager.set_students_to_cache redis1 students_dict fopt f.cacheSet).2
      (⟨true, students_dict, false, round2 dbMs, students_dict.length⟩,
       ⟨st.db, redis2⟩)

/-- The JSON payload of the mutating endpoints: HTTP status, success flag,
and the error message when any. -/
structure WriteResp where
  status : Nat
  success : Bool
  error : Option String
deriving DecidableEq, Repr

/-- The result of Python `float(x)` on the supplied `grade` field: a float
value, or a `ValueError` for a non-numeric string. -/
inductive GradeIn where
  | val (g : PyFloat)
  | badFloat
deriving DecidableEq, Repr

/-- A request body for create/update: each field optionally present. -/
structure StudentIn where
  name : Option String
  grade : Option GradeIn
deriving DecidableEq, Repr

/-- `routes.add_student`: requires both fields, converts and validates the
grade (range check first), rejects an empty trimmed name, then inserts the
record, commits, and invalidates the `students` cache namespace.  `body =
none` models a missing/falsy JSON body. -/
def add_student (st : AppState) (body : Option StudentIn) (now : Nat)
    (f : Faults) : WriteResp × AppState :=
  match body with
  | none => (⟨400, false, some "Nom et note sont requis"⟩, st)
  | some data =>
    match data.name, data.grade with
    | some rawName, some gIn =>
        let name := pyStrip rawName
        match gIn with
        | .badFloat => (⟨400, false, some "Format de note invalide"⟩, st)
        | .val grade =>
          if grade.lt (.fin 0) || grade.gt (.fin 20) then
            (⟨400, false, some "La note doit etre entre 0 et 20"⟩, st)
          else if name = "" then
            (⟨400, false, some "Le nom ne peut pas etre vide"⟩, st)
          else
            let new_student : Student := ⟨st.db.next_id, name, grade, now, now⟩
            let db' : DB := ⟨st.db.students ++ [new_student], st.db.next_id + 1⟩
            let redis' := (CacheManager.invalidate_students_cache st.redis f.inval).2
            (⟨201, true, none⟩, ⟨db', redis'⟩)
    | _, _ => (⟨400, false, some "Nom et note sont requis"⟩, st)

/-- `routes.update_student`: resolve by id (404 when absent), validate the
supplied fields (empty-name check, then float conversion and range check),
and only on full success commit the field updates, then invalidate the
cache.  Attribute assignments made before a failed validation are
session-local and are rolled back without commit, so every error branch
leaves the store untouched. -/
def update_student (st : AppState) (student_id : Nat) (data : StudentIn)
    (now : Nat) (f : Faults) : WriteResp × AppState :=
  match st.db.findById student_id with
  | none => (⟨404, false, some "Etudiant non trouve"⟩, st)
  | some _student =>
    let nameStep : Except WriteResp (Option String) :=
      match data.name with
      | none => .ok none
      | some rawName =>
        let name := pyStrip rawName
        if name = "" then .error ⟨400, false, some "Le nom ne peut pas etre vide"⟩
        else .ok (some name)
    match nameStep with
    | .error resp => (resp, st)
    | .ok newName =>
      let gradeStep : Except WriteResp (Option PyFloat) :=
        match data.grade with
        | none => .ok none
        | some .badFloat => .error ⟨400, false, some "Format de note invalide"⟩
        | some (.val grade) =>
          if grade.lt (.fin 0) || grade.gt (.fin 20) then
            .error ⟨400, false, some "La note doit etre entre 0 et 20"⟩
          else .ok (some grade)
      match gradeStep with
      | .error resp => (resp, st)
      | .ok newGrade =>
        let db' : DB := ⟨st.db.students.map (fun s =>
          if s.id == student_id then
            { s with name := newName.getD s.name, grade := newGrade.getD s.grade,
                     updated_at := now }
          else s), st.db.next_id⟩
        let redis' := (CacheManager.invalidate_students_cache st.redis f.inval).2
        (⟨200, true, none⟩, ⟨db', redis'⟩)

/-- `routes.delete_student`: resolve by id (404 when absent), delete,
commit, invalidate the cache. -/
def delete_student (st : AppState) (student_id : Nat) (f : Faults) :
    WriteResp × AppState :=
  match st.db.findById student_id with
  | none => (⟨404, false, some "Etudiant non trouve"⟩, st)
  | some _ =>
    let db' : DB := ⟨st.db.students.filter (fun s => !(s.id == student_id)), st.db.next_id⟩
    let redis' := (CacheManager.invalidate_students_cache st.redis f.inval).2
    (⟨200, true, none⟩, ⟨db', redis'⟩)

/-- `routes.clear_cache`: manual invalidation of the `students` namespace,
reporting the number of deleted keys. -/
def clear_cache (st : AppState) (f : Faults) : WriteResp × Nat × AppState :=
  let p := CacheManager.invalidate_students_cache st.redis f.inval
  (⟨200, true, none⟩, p.1, ⟨st.db, p.2⟩)

/-! ### Observations used by the verification -/

/-- The metric history of a source, newest first, as stored in Redis. -/
def hist (st : RedisState) (source : String) : List ℚ :=
  match st.get ("metrics:" ++ source) with
  | some (.vlist xs) => xs
  | _ => []

/-- The metric key of the source holds no string value (so `LPUSH` and
`LRANGE` on it cannot raise WRONGTYPE). -/
def metricsTyped (st : RedisState) (source : String) : Bool :=
  match st.get ("metrics:" ++ source) with
  | some (.vstr _) => false
  | _ => true

/-- Folding a chronological sequence of metric recordings into the keyspace. -/
def metricFold (ops : List (String × ℚ)) (st : RedisState) : RedisState :=
  ops.foldl (fun s p => CacheManager.store_performance_metric s p.1 p.2 false) st

/-- The values recorded for one source, in chronological order. -/
def recorded (ops : List (String × ℚ)) (source : String) : List ℚ :=
  (ops.filter (fun p => p.1 == source)).map Prod.snd

/-- Every value in the keyspace is a Redis list (true of every state built
from metric recording alone). -/
def allListVals (st : RedisState) : Prop :=
  ∀ e ∈ st.entries, ∃ xs, e.2 = RVal.vlist xs

/-- The whole `students` namespace is absent from the cache. -/
def cacheCleared (st : AppState) : Prop :=
  ∀ k, CacheManager.keyInStudentsNs k = true → st.redis.get k = none

/-- Every list read on the state is a miss served from the record store. -/
def freshRead (st : AppState) : Prop :=
  ∀ raw cl dl f₂, (get_students st raw cl dl f₂).1.from_cache = false ∧
    (get_students st raw cl dl f₂).1.students = studentQuery st.db (pyStrip raw)

/-! ### Generic list and string lemmas -/

theorem find?_filter_sub {α} (p q : α → Bool) (l : List α)
    (h : ∀ a, p a = true → q a = true) :
    (l.filter q).find? p = l.find? p := by
  induction l with
  | nil => rfl
  | cons x xs ih =>
    by_cases hq : q x = true
    · by_cases hp : p x = true
      · simp [List.filter_cons, List.find?_cons, hq, hp]
      · simp only [Bool.not_eq_true] at hp
        simp [List.filter_cons, List.find?_cons, hq, hp, ih]
    · have hp : p x = false := by
        cases hpx : p x
        · rfl
        · exact absurd (h x hpx) hq
      simp only [Bool.not_eq_true] at hq
      simp [List.filter_cons, List.find?_cons, hq, hp, ih]

theorem find?_filter_none {α} (p q : α → Bool) (l : List α)
    (h : ∀ a, p a = true → q a = false) :
    (l.filter q).find? p = none := by
  induction l with
  | nil => rfl
  | cons x xs ih =>
    by_cases hq : q x = true
    · have hp : p x = false := by
        cases hpx : p x
        · rfl
        · rw [h x hpx] at hq; exact absurd hq (by simp)
      simp [List.filter_cons, List.find?_cons, hq, hp, ih]
    · simp only [Bool.not_eq_true] at hq
      simp [List.filter_cons, hq, ih]

theorem isPrefixOf_append_self (l m : List Char) : l.isPrefixOf (l ++ m) = true := by
  induction l with
  | nil => simp [List.isPrefixOf]
  | cons c cs ih => simp [List.isPrefixOf, ih]

theorem isPrefixOf_head_ne (a b : Char) (as bs : List Char) (h : ¬ a = b) :
    (a :: as).isPrefixOf (b :: bs) = false := by
  simp [List.isPrefixOf, h]

theorem string_data_append (s t : String) : (s ++ t).data = s.data ++ t.data := rfl

theorem string_eq_of_data (a b : String) (h : a.data = b.data) : a = b := by
  cases a
  cases b
  exact congrArg String.mk h

theorem string_append_left_inj (p a b : String) (h : p ++ a = p ++ b) : a = b := by
  apply string_eq_of_data
  have hd : p.data ++ a.data = p.data ++ b.data := by
    rw [← string_data_append, ← string_data_append, h]
  exact List.append_cancel_left hd

/-! ### Redis keyspace lemmas -/

theorem RedisState.get_set_self (st : RedisState) (k : String) (v : RVal) :
    (st.set k v).get k = some v := by
  simp [RedisState.get, RedisState.set, List.find?_cons]

theorem RedisState.get_set_ne (st : RedisState) (k k' : String) (v : RVal)
    (h : ¬ k' = k) : (st.set k v).get k' = st.get k' := by
  unfold RedisState.get RedisState.set
  have hk : (((k, v) : String × RVal).1 == k') = false := by
    simp only [beq_eq_false_iff_ne, ne_eq]
    exact fun he => h he.symm
  rw [List.find?_cons_of_neg _ (by simp [hk]), find?_filter_sub]
  intro a ha
  have ha' : a.1 = k' := by simpa using ha
  simp [ha', h]

theorem get_invalidate_of_ns (st : RedisState) (k : String)
    (h : CacheManager.keyInStudentsNs k = true) :
    ((CacheManager.invalidate_students_cache st false).2).get k = none := by
  unfold CacheManager.invalidate_students_cache RedisState.get
  simp only [Bool.false_eq_true, if_false]
  rw [find?_filter_none]
  · rfl
  · intro a ha
    have ha' : a.1 = k := by simpa using ha
    simp [ha', h]

theorem get_invalidate_of_other (st : RedisState) (k : String)
    (h : CacheManager.keyInStudentsNs k = false) :
    ((CacheManager.invalidate_students_cache st false).2).get k = st.get k := by
  unfold CacheManager.invalidate_students_cache RedisState.get
  simp only [Bool.false_eq_true, if_false]
  rw [find?_filter_sub]
  intro a ha
  have ha' : a.1 = k := by simpa using ha
  simp [ha', h]

theorem studentsKey_shape (fopt : Option String) :
    ∃ d, CacheManager.studentsKey fopt = "students:" ++ d := by
  cases fopt with
  | some f => exact ⟨"filter:" ++ pyLower f, rfl⟩
  | none => exact ⟨"all", rfl⟩

theorem studentsKey_ns (fopt : Option String) :
    CacheManager.keyInStudentsNs (CacheManager.studentsKey fopt) = true := by
  obtain ⟨d, hd⟩ := studentsKey_shape fopt
  rw [hd]
  unfold CacheManager.keyInStudentsNs
  rw [string_data_append]
  exact isPrefixOf_append_self _ _

theorem metricKey_not_ns (src : String) :
    CacheManager.keyInStudentsNs ("metrics:" ++ src) = false := by
  unfold CacheManager.keyInStudentsNs
  rw [string_data_append]
  have h1 : "students:".data = 's' :: "tudents:".data := rfl
  have h2 : "metrics:".data ++ src.data = 'm' :: ("etrics:".data ++ src.data) := rfl
  rw [h1, h2]
  exact isPrefixOf_head_ne _ _ _ _ (by decide)

theorem studentsKey_ne_metricKey (fopt : Option String) (src : String) :
    ¬ CacheManager.studentsKey fopt = "metrics:" ++ src := by
  obtain ⟨d, hd⟩ := studentsKey_shape fopt
  rw [hd]
  intro h
  have h2 : ("students:" ++ d).data = ("metrics:" ++ src).data := by rw [h]
  rw [string_data_append, string_data_append] at h2
  have h3 : 's' :: ("tudents:".data ++ d.data) = 'm' :: ("etrics:".data ++ src.data) := h2
  exact absurd (List.cons.inj h3).1 (by decide)

theorem metricKey_inj (a b : String) (h : ("metrics:" ++ a) = "metrics:" ++ b) :
    a = b :=
  string_append_left_inj _ _ _ h

theorem get_store_metric_ne (st : RedisState) (src : String) (t : ℚ) (b : Bool)
    (k : String) (h : ¬ k = "metrics:" ++ src) :
    (CacheManager.store_performance_metric st src t b).get k = st.get k := by
  unfold CacheManager.store_performance_metric
  cases b with
  | true => rfl
  | false =>
    cases hg : st.get ("metrics:" ++ src) with
    | none => simp [hg, RedisState.get_set_ne _ _ _ _ h]
    | some v =>
      cases v with
      | vstr s => simp [hg]
      | vlist xs => simp [hg, RedisState.get_set_ne _ _ _ _ h]

theorem hist_store_self (st : RedisState) (src : String) (t : ℚ)
    (h : metricsTyped st src = true) :
    hist (CacheManager.store_performance_metric st src t false) src
      = (t :: hist st src).take 100 := by
  unfold metricsTyped at h
  unfold hist CacheManager.store_performance_metric
  cases hg : st.get ("metrics:" ++ src) with
  | none => simp [hg, RedisState.get_set_self]
  | some v =>
    cases v with
    | vstr s => rw [hg] at h; simp at h
    | vlist xs => simp [hg, RedisState.get_set_self]

theorem hist_store_ne (st : RedisState) (src src' : String) (t : ℚ)
    (h : ¬ src = src') :
    hist (CacheManager.store_performance_metric st src' t false) src
      = hist st src := by
  unfold hist
  rw [get_store_metric_ne]
  intro he
  exact h (metricKey_inj _ _ he)

theorem allListVals_empty : allListVals emptyRedis := by
  intro e he
  simp [emptyRedis] at he

theorem allListVals_store (st : RedisState) (src : String) (t : ℚ)
    (h : allListVals st) :
    allListVals (CacheManager.store_performance_metric st src t false) := by
  unfold CacheManager.store_performance_metric
  cases hg : st.get ("metrics:" ++ src) with
  | none =>
    intro e he
    simp only [Bool.false_eq_true, if_false, hg, RedisState.set] at he
    rcases List.mem_cons.mp he with he | he
    · exact ⟨_, by rw [he]⟩
    · exact h e (List.mem_of_mem_filter he)
  | some v =>
    cases v with
    | vstr s => simpa [hg] using h
    | vlist xs =>
      intro e he
      simp only [Bool.false_eq_true, if_false, hg, RedisState.set] at he
      rcases List.mem_cons.mp he with he | he
      · exact ⟨_, by rw [he]⟩
      · exact h e (List.mem_of_mem_filter he)

theorem metricsTyped_of_allListVals (st : RedisState) (h : allListVals st)
    (src : String) : metricsTyped st src = true := by
  unfold metricsTyped RedisState.get
  cases hf : st.entries.find? (fun e => e.1 == "metrics:" ++ src) with
  | none => rfl
  | some e =>
    obtain ⟨xs, hxs⟩ := h e (List.mem_of_find?_eq_some hf)
    simp [hxs]

/-! ### Metric history facts -/

theorem allListVals_metricFold (ops : List (String × ℚ)) :
    allListVals (metricFold ops emptyRedis) := by
  induction ops using List.reverseRecOn with
  | nil => exact allListVals_empty
  | append_singleton xs p ih =>
    unfold metricFold at ih ⊢
    rw [List.foldl_append]
    exact allListVals_store _ _ _ ih

theorem recorded_append (ops : List (String × ℚ)) (p : String × ℚ)
    (src : String) :
    recorded (ops ++ [p]) src
      = recorded ops src ++ (if p.1 == src then [p.2] else []) := by
  unfold recorded
  rw [List.filter_append]
  cases h : p.1 == src <;> simp [List.filter, h]

theorem hist_metricFold (ops : List (String × ℚ)) (src : String) :
    hist (metricFold ops emptyRedis) src = ((recorded ops src).reverse).take 100 := by
  induction ops using List.reverseRecOn with
  | nil => rfl
  | append_singleton xs p ih =>
    have hstep : metricFold (xs ++ [p]) emptyRedis
        = CacheManager.store_performance_metric (metricFold xs emptyRedis) p.1 p.2 false := by
      unfold metricFold
      rw [List.foldl_append]
      rfl
    rw [hstep, recorded_append]
    cases hp : p.1 == src with
    | true =>
      have hsrc : p.1 = src := eq_of_beq hp
      subst hsrc
      rw [hist_store_self _ _ _
            (metricsTyped_of_allListVals _ (allListVals_metricFold xs) _), ih]
      simp [List.reverse_append, List.take_succ_cons, List.take_take]
    | false =>
      have hsrc : ¬ src = p.1 := by
        intro he
        rw [he] at hp
        simp at hp
      rw [hist_store_ne _ _ _ _ hsrc, ih]
      simp [hp]

theorem lrangeAll_of_typed (st : RedisState) (src : String)
    (h : metricsTyped st src = true) :
    CacheManager.lrangeAll st ("metrics:" ++ src) = some (hist st src) := by
  unfold metricsTyped at h
  unfold CacheManager.lrangeAll hist
  cases hg : st.get ("metrics:" ++ src) with
  | none => simp [hg]
  | some v =>
    cases v with
    | vstr s => rw [hg] at h; simp at h
    | vlist xs => simp [hg]

theorem round2_zero : round2 0 = 0 := by
  norm_num [round2, roundHalfEven]

theorem pyAvg_nil : CacheManager.pyAvg [] = 0 := rfl

/-- C8: for every sequence of recordings, each per-source metric history is
the most-recent-first sequence of the values recorded for that source,
truncated to the 100 most recent (pure FIFO eviction of the oldest), its
length never exceeds 100, and one more recording pushes the new sample to
the front before truncating. -/
theorem claim_C8_metric_history_fifo (ops : List (String × ℚ)) (src : String) :
    hist (metricFold ops emptyRedis) src = ((recorded ops src).reverse).take 100 ∧
    (hist (metricFold ops emptyRedis) src).length ≤ 100 ∧
    (∀ t : ℚ,
      hist (CacheManager.store_performance_metric (metricFold ops emptyRedis) src t false) src
        = (t :: hist (metricFold ops emptyRedis) src).take 100) := by
  refine ⟨hist_metricFold ops src, ?_, ?_⟩
  · rw [hist_metricFold]
    exact List.length_take_le 100 _
  · intro t
    exact hist_store_self _ _ _
      (metricsTyped_of_allListVals _ (allListVals_metricFold ops) _)

/-- C7: on every state reachable by metric recording, the snapshot returns,
per source, the most recent 20 samples of the retained window, the count of
all retained samples (up to 100), and the rounded average over the full
retained window rather than the 20 displayed; with no data recorded the
average is 0 and the sample list empty. -/
theorem claim_C7_metrics_snapshot (ops : List (String × ℚ)) :
    (CacheManager.get_performance_metrics (metricFold ops emptyRedis) false =
      ⟨⟨(((recorded ops "cache").reverse).take 100).take 20,
        round2 (CacheManager.pyAvg (((recorded ops "cache").reverse).take 100)),
        (((recorded ops "cache").reverse).take 100).length⟩,
       ⟨(((recorded ops "database").reverse).take 100).take 20,
        round2 (CacheManager.pyAvg (((recorded ops "database").reverse).take 100)),
        (((recorded ops "database").reverse).take 100).length⟩⟩) ∧
    CacheManager.get_performance_metrics emptyRedis false =
      ⟨CacheManager.emptyStats, CacheManager.emptyStats⟩ := by
  constructor
  · have hc := lrangeAll_of_typed (metricFold ops emptyRedis) "cache"
      (metricsTyped_of_allListVals _ (allListVals_metricFold ops) _)
    have hd := lrangeAll_of_typed (metricFold ops emptyRedis) "database"
      (metricsTyped_of_allListVals _ (allListVals_metricFold ops) _)
    have hkc : ("metrics:" ++ "cache" : String) = "metrics:cache" := rfl
    have hkd : ("metrics:" ++ "database" : String) = "metrics:database" := rfl
    rw [hkc] at hc
    rw [hkd] at hd
    rw [hist_metricFold] at hc
    rw [hist_metricFold] at hd
    unfold CacheManager.get_performance_metrics
    simp [hc, hd]
  · unfold CacheManager.get_performance_metrics CacheManager.lrangeAll
    simp [emptyRedis, RedisState.get, CacheManager.emptyStats, pyAvg_nil, round2_zero]

/-- C1 (failing input): a create request with grade `NaN` (for example the
JSON body `{"name": "Alice", "grade": NaN}`, or the string "nan") passes
the range check because both IEEE comparisons with `NaN` are false, is
accepted with status 201, and persists a record whose grade violates the
invariant `0 ≤ grade ≤ 20`. -/
theorem claim_C1_nan_grade_persisted :
    add_student ⟨⟨[], 1⟩, emptyRedis⟩
        (some ⟨some "Alice", some (.val .nan)⟩) 5 noFaults
      = (⟨201, true, none⟩,
         ⟨⟨[⟨1, "Alice", .nan, 5, 5⟩], 2⟩, emptyRedis⟩) ∧
    gradeInRange PyFloat.nan = false := by
  constructor
  · decide
  · decide

/-- C4 (failing input): an update request carrying a valid name and the
grade `NaN` violates the validation predicate (`NaN` does not satisfy
`0 ≤ grade ≤ 20`), yet both comparisons of the range check are false, so
the update is accepted with status 200 and both stored fields are mutated. -/
theorem claim_C4_nan_grade_update :
    update_student ⟨⟨[⟨1, "Ada", .fin 10, 0, 0⟩], 2⟩, emptyRedis⟩ 1
        ⟨some "Bob", some (.val .nan)⟩ 7 noFaults
      = (⟨200, true, none⟩,
         ⟨⟨[⟨1, "Bob", .nan, 0, 7⟩], 2⟩, emptyRedis⟩) ∧
    gradeInRange PyFloat.nan = false := by
  constructor
  · decide
  · decide

/-- A sample record, store and keyspace for the concrete witnesses. -/
def adaStudent : Student := ⟨1, "Ada", .fin 10, 0, 0⟩

/-- A one-record store with autoincrement counter at 2. -/
def sampleDB : DB := ⟨[adaStudent], 2⟩

/-- A keyspace holding one cached listing and two metric histories. -/
def sampleRedis : RedisState :=
  ⟨[("students:all", .vstr [adaStudent]),
    ("metrics:cache", .vlist [3]),
    ("metrics:database", .vlist [7])]⟩

/-- The sample application state used by the witnesses. -/
def sampleState : AppState := ⟨sampleDB, sampleRedis⟩

/-- C5: an update or delete whose identifier resolves to no record returns
the not-found error and leaves the whole state (store and cache alike)
unchanged, so any previously cached listing is served exactly as before. -/
theorem claim_C5_not_found (st : AppState) (sid : Nat) (data : StudentIn)
    (now : Nat) (f : Faults) (h : st.db.findById sid = none) :
    update_student st sid data now f = (⟨404, false, some "Etudiant non trouve"⟩, st) ∧
    delete_student st sid f = (⟨404, false, some "Etudiant non trouve"⟩, st) ∧
    (∀ raw cl dl f₂, get_students (delete_student st sid f).2 raw cl dl f₂
        = get_students st raw cl dl f₂) := by
  have hd : delete_student st sid f = (⟨404, false, some "Etudiant non trouve"⟩, st) := by
    unfold delete_student
    rw [h]
  refine ⟨?_, hd, ?_⟩
  · unfold update_student
    rw [h]
  · intro raw cl dl f₂
    rw [hd]

/-- Concrete instance of the not-found theorem at identifier 999999 on a
state with a cached listing. -/
theorem claim_C5_not_found_witness :
    sampleState.db.findById 999999 = none ∧
    (update_student sampleState 999999 ⟨none, none⟩ 0 noFaults
        = (⟨404, false, some "Etudiant non trouve"⟩, sampleState) ∧
     delete_student sampleState 999999 noFaults
        = (⟨404, false, some "Etudiant non trouve"⟩, sampleState) ∧
     (∀ raw cl dl f₂, get_students (delete_student sampleState 999999 noFaults).2 raw cl dl f₂
        = get_students sampleState raw cl dl f₂)) :=
  ⟨by decide, claim_C5_not_found sampleState 999999 ⟨none, none⟩ 0 noFaults (by decide)⟩

/-! ### Write path: successful mutations end in an invalidated cache -/

theorem add_success_redis (st : AppState) (body : Option StudentIn) (now : Nat)
    (f : Faults) (h : (add_student st body now f).1.success = true) :
    (add_student st body now f).2.redis
      = (CacheManager.invalidate_students_cache st.redis f.inval).2 := by
  rcases body with _ | ⟨n, g⟩
  · simp [add_student] at h
  · rcases n with _ | rawName
    · rcases g with _ | gIn <;> simp [add_student] at h
    · rcases g with _ | gIn
      · simp [add_student] at h
      · rcases gIn with grade | _
        · by_cases h1 : (grade.lt (.fin 0) || grade.gt (.fin 20)) = true
          · simp [add_student, h1] at h
          · rw [Bool.not_eq_true] at h1
            by_cases h2 : pyStrip rawName = ""
            · simp [add_student, h1, h2] at h
            · simp [add_student, h1, h2]
        · simp [add_student] at h

theorem update_success_redis (st : AppState) (sid : Nat) (data : StudentIn)
    (now : Nat) (f : Faults)
    (h : (update_student st sid data now f).1.success = true) :
    (update_student st sid data now f).2.redis
      = (CacheManager.invalidate_students_cache st.redis f.inval).2 := by
  cases hfind : st.db.findById sid with
  | none => simp [update_student, hfind] at h
  | some stu =>
    rcases data with ⟨n, g⟩
    rcases n with _ | rawName
    · rcases g with _ | gIn
      · simp [update_student, hfind]
      · rcases gIn with grade | _
        · by_cases h1 : (grade.lt (.fin 0) || grade.gt (.fin 20)) = true
          · simp [update_student, hfind, h1] at h
          · rw [Bool.not_eq_true] at h1
            simp [update_student, hfind, h1]
        · simp [update_student, hfind] at h
    · by_cases h2 : pyStrip rawName = ""
      · simp [update_student, hfind, h2] at h
      · rcases g with _ | gIn
        · simp [update_student, hfind, h2]
        · rcases gIn with grade | _
          · by_cases h1 : (grade.lt (.fin 0) || grade.gt (.fin 20)) = true
            · simp [update_student, hfind, h2, h1] at h
            · rw [Bool.not_eq_true] at h1
              simp [update_student, hfind, h2, h1]
          · simp [update_student, hfind, h2] at h

theorem delete_success_redis (st : AppState) (sid : Nat) (f : Faults)
    (h : (delete_student st sid f).1.success = true) :
    (delete_student st sid f).2.redis
      = (CacheManager.invalidate_students_cache st.redis f.inval).2 := by
  cases hfind : st.db.findById sid with
  | none => simp [delete_student, hfind] at h
  | some stu => simp [delete_student, hfind]

theorem get_students_of_cleared (st : AppState) (h : cacheCleared st) :
    freshRead st := by
  intro raw cl dl f₂
  have hk : st.redis.get (CacheManager.studentsKey (stripOpt raw)) = none :=
    h _ (studentsKey_ns _)
  cases hfg : f₂.cacheGet with
  | true =>
    constructor <;> simp [get_students, CacheManager.get_students_from_cache, hfg]
  | false =>
    constructor <;> simp [get_students, CacheManager.get_students_from_cache, hfg, hk]

theorem cleared_of_invalidate (db : DB) (rst : RedisState) :
    cacheCleared ⟨db, (CacheManager.invalidate_students_cache rst false).2⟩ :=
  fun k hk => get_invalidate_of_ns rst k hk

/-- C2: after every accepted create, update or delete, every key of the
`students:` namespace is gone from the cache, and the next list read for
any filter is a miss answered from the current record store. -/
theorem claim_C2_write_invalidates (st : AppState) (now : Nat) (f : Faults)
    (hf : f.inval = false) :
    (∀ body, (add_student st body now f).1.success = true →
        cacheCleared (add_student st body now f).2 ∧
        freshRead (add_student st body now f).2) ∧
    (∀ sid data, (update_student st sid data now f).1.success = true →
        cacheCleared (update_student st sid data now f).2 ∧
        freshRead (update_student st sid data now f).2) ∧
    (∀ sid, (delete_student st sid f).1.success = true →
        cacheCleared (delete_student st sid f).2 ∧
        freshRead (delete_student st sid f).2) := by
  refine ⟨fun body h => ?_, fun sid data h => ?_, fun sid h => ?_⟩
  · have hr := add_success_redis st body now f h
    rw [hf] at hr
    have hc : cacheCleared (add_student st body now f).2 := by
      intro k hk
      show (add_student st body now f).2.redis.get k = none
      rw [hr]
      exact get_invalidate_of_ns _ _ hk
    exact ⟨hc, get_students_of_cleared _ hc⟩
  · have hr := update_success_redis st sid data now f h
    rw [hf] at hr
    have hc : cacheCleared (update_student st sid data now f).2 := by
      intro k hk
      show (update_student st sid data now f).2.redis.get k = none
      rw [hr]
      exact get_invalidate_of_ns _ _ hk
    exact ⟨hc, get_students_of_cleared _ hc⟩
  · have hr := delete_success_redis st sid f h
    rw [hf] at hr
    have hc : cacheCleared (delete_student st sid f).2 := by
      intro k hk
      show (delete_student st sid f).2.redis.get k = none
      rw [hr]
      exact get_invalidate_of_ns _ _ hk
    exact ⟨hc, get_students_of_cleared _ hc⟩

/-- Concrete instance: creating the student Zoe with grade 18 on the sample
state succeeds and clears the cached listings. -/
theorem claim_C2_write_invalidates_witness :
    noFaults.inval = false ∧
    (add_student sampleState (some ⟨some "Zoe", some (.val (.fin 18))⟩) 3 noFaults).1.success
      = true ∧
    (cacheCleared (add_student sampleState (some ⟨some "Zoe", some (.val (.fin 18))⟩) 3 noFaults).2 ∧
     freshRead (add_student sampleState (some ⟨some "Zoe", some (.val (.fin 18))⟩) 3 noFaults).2) :=
  ⟨rfl, by decide,
   (claim_C2_write_invalidates sampleState 3 noFaults rfl).1 _ (by decide)⟩

theorem hist_set_students (rst : RedisState) (Q : List Student)
    (fopt : Option String) (b : Bool) (src : String) :
    hist ((CacheManager.set_students_to_cache rst Q fopt b).2) src = hist rst src := by
  cases b with
  | true => rfl
  | false =>
    unfold CacheManager.set_students_to_cache hist
    simp only [Bool.false_eq_true, if_false]
    rw [RedisState.get_set_ne _ _ _ _
      (fun he => studentsKey_ne_metricKey fopt src he.symm)]

/-- C3: on every read, a metric sample with the measured latency of the
access is stored: the cache-lookup latency under source `cache` on a hit,
and the store-query latency under source `database` on a miss. -/
theorem claim_C3_metric_on_every_read (st : AppState) (raw : String)
    (cl dl : ℚ) (f : Faults) (hm : f.metric = false)
    (htc : metricsTyped st.redis "cache" = true)
    (htd : metricsTyped st.redis "database" = true) :
    ((get_students st raw cl dl f).1.from_cache = true →
      hist (get_students st raw cl dl f).2.redis "cache"
        = (cl :: hist st.redis "cache").take 100) ∧
    ((get_students st raw cl dl f).1.from_cache = false →
      hist (get_students st raw cl dl f).2.redis "database"
        = (dl :: hist st.redis "database").take 100) := by
  cases hfg : f.cacheGet with
  | true =>
    constructor
    · intro hfc
      simp [get_students, CacheManager.get_students_from_cache, hfg] at hfc
    · intro _
      have hred : (get_students st raw cl dl f).2.redis
          = (CacheManager.set_students_to_cache
              (CacheManager.store_performance_metric st.redis "database" dl f.metric)
              (studentQuery st.db (pyStrip raw)) (stripOpt raw) f.cacheSet).2 := by
        simp [get_students, CacheManager.get_students_from_cache, hfg]
      rw [hred, hist_set_students, hm, hist_store_self _ _ _ htd]
  | false =>
    cases hget : st.redis.get (CacheManager.studentsKey (stripOpt raw)) with
    | some v =>
      cases v with
      | vstr d =>
        constructor
        · intro _
          have hred : (get_students st raw cl dl f).2.redis
              = CacheManager.store_performance_metric st.redis "cache" cl f.metric := by
            simp [get_students, CacheManager.get_students_from_cache, hfg, hget]
          rw [hred, hm, hist_store_self _ _ _ htc]
        · intro hfc
          simp [get_students, CacheManager.get_students_from_cache, hfg, hget] at hfc
      | vlist xs =>
        constructor
        · intro hfc
          simp [get_students, CacheManager.get_students_from_cache, hfg, hget] at hfc
        · intro _
          have hred : (get_students st raw cl dl f).2.redis
              = (CacheManager.set_students_to_cache
                  (CacheManager.store_performance_metric st.redis "database" dl f.metric)
                  (studentQuery st.db (pyStrip raw)) (stripOpt raw) f.cacheSet).2 := by
            simp [get_students, CacheManager.get_students_from_cache, hfg, hget]
          rw [hred, hist_set_students, hm, hist_store_self _ _ _ htd]
    | none =>
      constructor
      · intro hfc
        simp [get_students, CacheManager.get_students_from_cache, hfg, hget] at hfc
      · intro _
        have hred : (get_students st raw cl dl f).2.redis
            = (CacheManager.set_students_to_cache
                (CacheManager.store_performance_metric st.redis "database" dl f.metric)
                (studentQuery st.db (pyStrip raw)) (stripOpt raw) f.cacheSet).2 := by
          simp [get_students, CacheManager.get_students_from_cache, hfg, hget]
        rw [hred, hist_set_students, hm, hist_store_self _ _ _ htd]

/-- Concrete instance: a hit and its recorded cache sample on the sample
state, with healthy backends. -/
theorem claim_C3_metric_on_every_read_witness :
    noFaults.metric = false ∧
    metricsTyped sampleState.redis "cache" = true ∧
    metricsTyped sampleState.redis "database" = true ∧
    (((get_students sampleState "" 2 9 noFaults).1.from_cache = true →
      hist (get_students sampleState "" 2 9 noFaults).2.redis "cache"
        = ((2 : ℚ) :: hist sampleState.redis "cache").take 100) ∧
     ((get_students sampleState "" 2 9 noFaults).1.from_cache = false →
      hist (get_students sampleState "" 2 9 noFaults).2.redis "database"
        = ((9 : ℚ) :: hist sampleState.redis "database").take 100)) :=
  ⟨rfl, by decide, by decide,
   claim_C3_metric_on_every_read sampleState "" 2 9 noFaults rfl (by decide) (by decide)⟩

/-- The fault pattern of C6: only the cache lookup call raises. -/
def cacheDownGet : Faults := ⟨true, false, false, false⟩

/-- C6: a cache-backend failure during the lookup is absorbed and yields
exactly the absent-key result, and the read still succeeds from the record
store, repopulates the cache key, and reports the data as not from cache. -/
theorem claim_C6_cache_failure_degrades (st : AppState) (raw : String)
    (cl dl : ℚ) :
    CacheManager.get_students_from_cache st.redis (stripOpt raw) true cl
      = (none, 0, false) ∧
    CacheManager.get_students_from_cache st.redis (stripOpt raw) true cl
      = CacheManager.get_students_from_cache emptyRedis (stripOpt raw) false cl ∧
    (get_students st raw cl dl cacheDownGet).1.success = true ∧
    (get_students st raw cl dl cacheDownGet).1.from_cache = false ∧
    (get_students st raw cl dl cacheDownGet).1.students
      = studentQuery st.db (pyStrip raw) ∧
    (get_students st raw cl dl cacheDownGet).2.redis.get
        (CacheManager.studentsKey (stripOpt raw))
      = some (.vstr (studentQuery st.db (pyStrip raw))) := by
  refine ⟨rfl, rfl, ?_, ?_, ?_, ?_⟩
  · simp [get_students, CacheManager.get_students_from_cache, cacheDownGet]
  · simp [get_students, CacheManager.get_students_from_cache, cacheDownGet]
  · simp [get_students, CacheManager.get_students_from_cache, cacheDownGet]
  · have hred : (get_students st raw cl dl cacheDownGet).2.redis
        = ((CacheManager.store_performance_metric st.redis "database" dl false).set
            (CacheManager.studentsKey (stripOpt raw))
            (.vstr (studentQuery st.db (pyStrip raw)))) := by
      simp [get_students, CacheManager.get_students_from_cache,
        CacheManager.set_students_to_cache, cacheDownGet]
    rw [hred]
    exact RedisState.get_set_self _ _ _

/-- C9: with a healthy backend and no intervening write, reading the same
filter twice returns the same student data, and the second read is served
from the cache (the first read populates the key it hits). -/
theorem claim_C9_repeat_read (st : AppState) (raw : String)
    (cl dl cl2 dl2 : ℚ) :
    (get_students (get_students st raw cl dl noFaults).2 raw cl2 dl2 noFaults).1.students
      = (get_students st raw cl dl noFaults).1.students ∧
    (get_students (get_students st raw cl dl noFaults).2 raw cl2 dl2 noFaults).1.from_cache
      = true := by
  cases hget : st.redis.get (CacheManager.studentsKey (stripOpt raw)) with
  | some v =>
    cases v with
    | vstr d =>
      have h1 : get_students st raw cl dl noFaults
          = (⟨true, d, true, round2 cl, d.length⟩,
             ⟨st.db, CacheManager.store_performance_metric st.redis "cache" cl false⟩) := by
        simp [get_students, CacheManager.get_students_from_cache, noFaults, hget]
      have h2key : (CacheManager.store_performance_metric st.redis "cache" cl false).get
          (CacheManager.studentsKey (stripOpt raw)) = some (.vstr d) := by
        rw [get_store_metric_ne _ _ _ _ _ (studentsKey_ne_metricKey _ _)]
        exact hget
      rw [h1]
      constructor <;>
        simp [get_students, CacheManager.get_students_from_cache, noFaults, h2key]
    | vlist xs =>
      have h1 : get_students st raw cl dl noFaults
          = (⟨true, studentQuery st.db (pyStrip raw), false, round2 dl,
              (studentQuery st.db (pyStrip raw)).length⟩,
             ⟨st.db, (CacheManager.store_performance_metric st.redis "database" dl false).set
                (CacheManager.studentsKey (stripOpt raw))
                (.vstr (studentQuery st.db (pyStrip raw)))⟩) := by
        simp [get_students, CacheManager.get_students_from_cache,
          CacheManager.set_students_to_cache, noFaults, hget]
      rw [h1]
      constructor <;>
        simp [get_students, CacheManager.get_students_from_cache, noFaults,
          RedisState.get_set_self]
  | none =>
    have h1 : get_students st raw cl dl noFaults
        = (⟨true, studentQuery st.db (pyStrip raw), false, round2 dl,
            (studentQuery st.db (pyStrip raw)).length⟩,
           ⟨st.db, (CacheManager.store_performance_metric st.redis "database" dl false).set
              (CacheManager.studentsKey (stripOpt raw))
              (.vstr (studentQuery st.db (pyStrip raw)))⟩) := by
      simp [get_students, CacheManager.get_students_from_cache,
        CacheManager.set_students_to_cache, noFaults, hget]
    rw [h1]
    constructor <;>
      simp [get_students, CacheManager.get_students_from_cache, noFaults,
        RedisState.get_set_self]

/-- C10: invalidation (also via the manual clear-cache endpoint) is framed
on the `students:*` pattern: any key outside that prefix, in particular the
two metric histories, keeps its value. -/
theorem claim_C10_invalidation_frame (rst : RedisState) (st : AppState)
    (k : String) (h : CacheManager.keyInStudentsNs k = false) :
    ((CacheManager.invalidate_students_cache rst false).2).get k = rst.get k ∧
    ((clear_cache st noFaults).2.2).redis.get "metrics:cache"
      = st.redis.get "metrics:cache" ∧
    ((clear_cache st noFaults).2.2).redis.get "metrics:database"
      = st.redis.get "metrics:database" := by
  refine ⟨get_invalidate_of_other rst k h, ?_, ?_⟩
  · exact get_invalidate_of_other st.redis _ (by decide)
  · exact get_invalidate_of_other st.redis _ (by decide)

/-- Concrete instance: clearing the sample cache leaves both metric history
keys untouched. -/
theorem claim_C10_invalidation_frame_witness :
    CacheManager.keyInStudentsNs "metrics:cache" = false ∧
    (((CacheManager.invalidate_students_cache sampleRedis false).2).get "metrics:cache"
        = sampleRedis.get "metrics:cache" ∧
     ((clear_cache sampleState noFaults).2.2).redis.get "metrics:cache"
        = sampleState.redis.get "metrics:cache" ∧
     ((clear_cache sampleState noFaults).2.2).redis.get "metrics:database"
        = sampleState.redis.get "metrics:database") :=
  ⟨by decide,
   claim_C10_invalidation_frame sampleRedis sampleState "metrics:cache" (by decide)⟩
